import Mathlib

/-!
Verification development for the Dynamic-Customer-Management app
(src/src/App.tsx), a single-page CRUD form over a remote `customers`
table with a client-side substring filter.

The React component's state and handlers are shallowly embedded as pure
functions: each handler takes the current application state together
with the responses the remote store returns for the calls it issues,
and returns the next state, the list of toast notifications emitted,
and the list of store calls issued (in order).
-/

/-- Character-level prefix test: `isPrefixChars pat s` is true iff `pat`
is an initial segment of `s`. -/
def isPrefixChars : List Char → List Char → Bool
  | [], _ => true
  | _ :: _, [] => false
  | a :: as, b :: bs => a == b && isPrefixChars as bs

/-- Character-level substring test, modelling JavaScript
`String.prototype.includes`: `containsChars pat s` is true iff `pat`
occurs contiguously inside `s`. -/
def containsChars (pat : List Char) : List Char → Bool
  | [] => isPrefixChars pat []
  | c :: rest => isPrefixChars pat (c :: rest) || containsChars pat rest

/-- Character-level case folding, modelling `String.prototype.toLowerCase`. -/
def toLowerChars (l : List Char) : List Char := l.map Char.toLower

/-- A customer row as used by `App.tsx` (the row carries `id`, the four
editable fields, and the store-assigned creation timestamp). -/
structure Customer where
  id : String
  name : String
  shirt : String
  pants : String
  phone : String
  created_at : String
deriving DecidableEq

/-- The `formData` state object of `App.tsx`: the four editable fields. -/
structure FormData where
  name : String
  shirt : String
  pants : String
  phone : String
deriving DecidableEq

/-- The cleared form, `{ name: '', shirt: '', pants: '', phone: '' }`. -/
def emptyFormData : FormData := ⟨"", "", "", ""⟩

/-- The React component's state variables. -/
structure AppState where
  customers : List Customer
  filteredCustomers : List Customer
  loading : Bool
  searchQuery : String
  editingCustomer : Option Customer
  formData : FormData
deriving DecidableEq

/-- A toast notification, as emitted by `react-hot-toast`. -/
inductive Toast where
  | success (msg : String)
  | error (msg : String)
deriving DecidableEq

/-- A call issued to the remote store (supabase) by the handlers. -/
inductive StoreCall where
  | fetchAll
  | insert (fields : FormData)
  | update (id : String) (fields : FormData)
  | delete (id : String)
deriving DecidableEq

/-- The store's response to a single call: `{ data, error }` collapsed to
success-with-value or error. -/
inductive StoreResult (α : Type) where
  | ok (val : α)
  | err
deriving DecidableEq

/-- The outcome of running one handler: the next state, the toasts
emitted, and the store calls issued, each in program order. -/
structure StepOut where
  state : AppState
  toasts : List Toast
  calls : List StoreCall
deriving DecidableEq

/-- The filter predicate from the `useEffect` at `App.tsx:24-30`:
`customer.name.toLowerCase().includes(searchQuery.toLowerCase()) ||
customer.phone.includes(searchQuery)`. -/
def matchesQuery (q : String) (c : Customer) : Bool :=
  containsChars (toLowerChars q.data) (toLowerChars c.name.data) ||
  containsChars q.data c.phone.data

/-- The derivation of `filteredCustomers` from `customers` and
`searchQuery` (`App.tsx:25-28`): `customers.filter(...)`. -/
def filterCustomers (cs : List Customer) (q : String) : List Customer :=
  cs.filter (matchesQuery q)

/-- `fetchCustomers` (`App.tsx:32-48`): on success set both `customers`
and `filteredCustomers` to `data || []`; on failure emit one error toast
and leave the lists untouched; in both cases clear `loading`.  Takes the
store's response to the single `fetchAll` call it issues. -/
def fetchCustomers (s : AppState) (res : StoreResult (Option (List Customer))) :
    AppState × List Toast :=
  match res with
  | .ok data =>
      let d := data.getD []
      ({ s with customers := d, filteredCustomers := d, loading := false }, [])
  | .err =>
      ({ s with loading := false }, [Toast.error "Error fetching customers"])

/-- `handleSubmit` (`App.tsx:50-82`): set `loading`; if editing, issue
`update(editingCustomer.id, formData)`, else issue `insert(formData)`;
on success toast, clear the form, leave editing mode and re-fetch; on
failure toast the mode-specific error; finally clear `loading`.
`mutRes` is the store's answer to the mutation, `fetchRes` its answer to
the re-fetch (unused when the mutation fails, since no fetch is issued). -/
def handleSubmit (s : AppState) (mutRes : StoreResult Unit)
    (fetchRes : StoreResult (Option (List Customer))) : StepOut :=
  let s1 : AppState := { s with loading := true }
  match s1.editingCustomer with
  | some ec =>
      match mutRes with
      | .err =>
          { state := { s1 with loading := false },
            toasts := [Toast.error "Error updating customer"],
            calls := [StoreCall.update ec.id s1.formData] }
      | .ok _ =>
          let s2 : AppState :=
            { s1 with formData := emptyFormData, editingCustomer := none }
          let f := fetchCustomers s2 fetchRes
          { state := { f.1 with loading := false },
            toasts := Toast.success "Customer updated successfully" :: f.2,
            calls := [StoreCall.update ec.id s1.formData, StoreCall.fetchAll] }
  | none =>
      match mutRes with
      | .err =>
          { state := { s1 with loading := false },
            toasts := [Toast.error "Error adding customer"],
            calls := [StoreCall.insert s1.formData] }
      | .ok _ =>
          let s2 : AppState :=
            { s1 with formData := emptyFormData, editingCustomer := none }
          let f := fetchCustomers s2 fetchRes
          { state := { f.1 with loading := false },
            toasts := Toast.success "Customer added successfully" :: f.2,
            calls := [StoreCall.insert s1.formData, StoreCall.fetchAll] }

/-- `handleEdit` (`App.tsx:84-92`): enter editing mode on the given
customer and copy its four fields into the form. -/
def handleEdit (s : AppState) (c : Customer) : AppState :=
  { s with
      editingCustomer := some c,
      formData := ⟨c.name, c.shirt, c.pants, c.phone⟩ }

/-- `handleDelete` (`App.tsx:94-113`): if the confirmation prompt is
declined, return with no call, no toast and no state change; otherwise
set `loading`, issue `delete(id)`, on success toast and re-fetch, on
failure toast, and finally clear `loading`. -/
def handleDelete (s : AppState) (id : String) (confirmed : Bool)
    (delRes : StoreResult Unit)
    (fetchRes : StoreResult (Option (List Customer))) : StepOut :=
  if confirmed then
    let s1 : AppState := { s with loading := true }
    match delRes with
    | .err =>
        { state := { s1 with loading := false },
          toasts := [Toast.error "Error deleting customer"],
          calls := [StoreCall.delete id] }
    | .ok _ =>
        let f := fetchCustomers s1 fetchRes
        { state := { f.1 with loading := false },
          toasts := Toast.success "Customer deleted successfully" :: f.2,
          calls := [StoreCall.delete id, StoreCall.fetchAll] }
  else
    { state := s, toasts := [], calls := [] }

/-- Modelled from the spec: the `Customer` type declaration
(`src/types/customer.ts`) is not in the sources; §3 of the spec makes
`phone` optional, so a row as typed may lack a `phone` string. -/
structure CustomerO where
  id : String
  name : String
  shirt : String
  pants : String
  phone : Option String
  created_at : String
deriving DecidableEq

/-- The filter predicate of `App.tsx:26-27` evaluated over a row whose
`phone` may be absent: `customer.phone.includes(searchQuery)` throws
(here: `none`) when `phone` is `undefined`, and by short-circuiting of
`||` it is evaluated exactly when the name test fails. -/
def matchesQueryO (q : String) (c : CustomerO) : Option Bool :=
  if containsChars (toLowerChars q.data) (toLowerChars c.name.data) then
    some true
  else
    match c.phone with
    | some p => some (containsChars q.data p.data)
    | none => none

/-- `customers.filter(...)` over possibly-phone-less rows: `none` models
the JavaScript filter throwing at the first row whose predicate errors. -/
def filterCustomersO : List CustomerO → String → Option (List CustomerO)
  | [], _ => some []
  | c :: cs, q =>
      match matchesQueryO q c, filterCustomersO cs q with
      | some b, some rest => some (if b then c :: rest else rest)
      | _, _ => none

/-- The spec's matching rule, §4.2, stated as a proposition: the record
is retained iff the case-folded query is a substring of the case-folded
name, or the unfolded query is a substring of `phone`. -/
def SubstrOf (pat hay : List Char) : Prop :=
  ∃ pre post, hay = pre ++ pat ++ post

/-- The spec's retention rule for one record (§4.2). -/
def specMatches (q : String) (c : Customer) : Prop :=
  SubstrOf (toLowerChars q.data) (toLowerChars c.name.data) ∨
  SubstrOf q.data c.phone.data

/-- A concrete stored customer, used for concrete evaluations. -/
def cexCustomer : Customer :=
  ⟨"c1", "Alice", "Chest 40", "Waist 32", "555-1111", "2024-01-01"⟩

/-- A concrete state in editing mode on `cexCustomer`, with edited form
contents. -/
def sEdit : AppState :=
  { customers := [cexCustomer],
    filteredCustomers := [cexCustomer],
    loading := false,
    searchQuery := "",
    editingCustomer := some cexCustomer,
    formData := ⟨"Alicia", "Chest 41", "Waist 33", "555-9999"⟩ }

/-- A concrete state in create mode with a filled-in form. -/
def sCreate : AppState :=
  { customers := [],
    filteredCustomers := [],
    loading := false,
    searchQuery := "",
    editingCustomer := none,
    formData := ⟨"Bob", "Chest 38", "Waist 30", ""⟩ }

/-- A concrete list of rows that all carry a `phone` string. -/
def cexOList : List CustomerO :=
  [⟨"1", "Alice", "Chest 40", "Waist 32", some "555-1111", "2024-01-01"⟩]

lemma isPrefixChars_iff (pat : List Char) :
    ∀ s, isPrefixChars pat s = true ↔ ∃ t, s = pat ++ t := by
  induction pat with
  | nil =>
      intro s
      simp [isPrefixChars]
  | cons a as ih =>
      intro s
      cases s with
      | nil =>
          simp [isPrefixChars]
      | cons b bs =>
          simp only [isPrefixChars, Bool.and_eq_true, beq_iff_eq, ih bs,
            List.cons_append, List.cons.injEq]
          constructor
          · rintro ⟨rfl, t, rfl⟩
            exact ⟨t, rfl, rfl⟩
          · rintro ⟨t, rfl, rfl⟩
            exact ⟨rfl, t, rfl⟩

lemma substrOf_nil (pat : List Char) : SubstrOf pat [] ↔ pat = [] := by
  constructor
  · rintro ⟨pre, post, h⟩
    rcases List.append_eq_nil.mp h.symm with ⟨h1, h2⟩
    rcases List.append_eq_nil.mp h1 with ⟨-, h3⟩
    exact h3
  · rintro rfl
    exact ⟨[], [], rfl⟩

lemma substrOf_cons (pat : List Char) (c : Char) (rest : List Char) :
    SubstrOf pat (c :: rest) ↔ (∃ t, c :: rest = pat ++ t) ∨ SubstrOf pat rest := by
  constructor
  · rintro ⟨pre, post, h⟩
    cases pre with
    | nil =>
        left
        exact ⟨post, by simpa using h⟩
    | cons p ps =>
        right
        simp only [List.cons_append, List.cons.injEq] at h
        exact ⟨ps, post, h.2⟩
  · rintro (⟨t, ht⟩ | ⟨pre, post, h⟩)
    · exact ⟨[], t, by simpa using ht⟩
    · exact ⟨c :: pre, post, by simp [h]⟩

lemma containsChars_iff (pat : List Char) :
    ∀ s, containsChars pat s = true ↔ SubstrOf pat s := by
  intro s
  induction s with
  | nil =>
      simp only [containsChars, isPrefixChars_iff, substrOf_nil]
      constructor
      · rintro ⟨t, ht⟩
        rcases List.append_eq_nil.mp ht.symm with ⟨h1, -⟩
        exact h1
      · rintro rfl
        exact ⟨[], rfl⟩
  | cons c rest ih =>
      simp only [containsChars, Bool.or_eq_true, isPrefixChars_iff, ih,
        substrOf_cons]

lemma containsChars_nil_pat : ∀ s, containsChars [] s = true := by
  intro s
  cases s with
  | nil => rfl
  | cons c rest => simp [containsChars, isPrefixChars]

lemma matchesQuery_iff (q : String) (c : Customer) :
    matchesQuery q c = true ↔ specMatches q c := by
  simp [matchesQuery, specMatches, Bool.or_eq_true, containsChars_iff]

lemma matchesQuery_empty (c : Customer) : matchesQuery "" c = true := by
  have h0 : ("" : String).data = [] := rfl
  simp [matchesQuery, h0, toLowerChars, containsChars_nil_pat]

/-- Claim C1 (amended): a successful create or modify clears all four
form fields, leaves editing mode, and issues exactly one re-fetch of the
full list; a successful confirmed delete issues exactly one re-fetch of
the full list (but, per the code, does not touch the form or the editing
mode). -/
theorem mutation_success_refetch (s : AppState) (id : String)
    (fetchRes : StoreResult (Option (List Customer))) :
    ((handleSubmit s (.ok ()) fetchRes).state.formData = emptyFormData ∧
     (handleSubmit s (.ok ()) fetchRes).state.editingCustomer = none ∧
     (handleSubmit s (.ok ()) fetchRes).calls.count StoreCall.fetchAll = 1) ∧
    (handleDelete s id true (.ok ()) fetchRes).calls.count StoreCall.fetchAll = 1 := by
  obtain ⟨cu, fc, ld, sq, edc, fd⟩ := s
  constructor
  · cases edc <;> cases fetchRes <;> exact ⟨rfl, rfl, rfl⟩
  · cases fetchRes <;> rfl

/-- Claim C1, counterexample to the claim as stated: a successful delete
(success toast emitted, re-fetch issued) leaves the Controller in
editing mode with the form fields not cleared. -/
theorem delete_success_not_clearing_cex :
    (handleDelete sEdit "c1" true (.ok ()) (.ok (some []))).toasts =
      [Toast.success "Customer deleted successfully"] ∧
    (handleDelete sEdit "c1" true (.ok ()) (.ok (some []))).calls.count
      StoreCall.fetchAll = 1 ∧
    (handleDelete sEdit "c1" true (.ok ()) (.ok (some []))).state.editingCustomer ≠
      none ∧
    (handleDelete sEdit "c1" true (.ok ()) (.ok (some []))).state.formData ≠
      emptyFormData := by
  refine ⟨rfl, rfl, ?_, ?_⟩ <;> decide

/-- Claim C2: the filter is a subsequence of its input (hence preserves
relative order) and retains a record iff the case-folded query is a
substring of the case-folded name, or the unfolded query is a substring
of the phone (the spec's §4.2 rule, `specMatches`). -/
theorem filter_spec_characterization (L : List Customer) (q : String) :
    List.Sublist (filterCustomers L q) L ∧
    (∀ c, c ∈ filterCustomers L q ↔ c ∈ L ∧ specMatches q c) ∧
    ∃ p : Customer → Bool, (∀ c, p c = true ↔ specMatches q c) ∧
      filterCustomers L q = L.filter p := by
  refine ⟨List.filter_sublist L, ?_, matchesQuery q, matchesQuery_iff q, rfl⟩
  intro c
  simp [filterCustomers, List.mem_filter, matchesQuery_iff]

/-- Claim C2, witness: the retention rule at a concrete record and
list. -/
theorem filter_spec_characterization_witness :
    cexCustomer ∈ filterCustomers [cexCustomer] "ali" ↔
      cexCustomer ∈ [cexCustomer] ∧ specMatches "ali" cexCustomer :=
  (filter_spec_characterization [cexCustomer] "ali").2.1 cexCustomer

/-- Claim C3: filtering with the empty query is the identity. -/
theorem filter_empty_query (L : List Customer) : filterCustomers L "" = L := by
  rw [filterCustomers]
  exact List.filter_eq_self.mpr fun c _ => matchesQuery_empty c

/-- Claim C4: submission dispatches on the Controller mode — in
`Editing(ec)` the first store call is `update(ec.id, formData)` and no
insert is ever issued; in create mode the first store call is
`insert(formData)` and no update is ever issued. -/
theorem submit_dispatch (s : AppState) (mutRes : StoreResult Unit)
    (fetchRes : StoreResult (Option (List Customer))) :
    (∀ ec, s.editingCustomer = some ec →
      (handleSubmit s mutRes fetchRes).calls.head? =
        some (StoreCall.update ec.id s.formData) ∧
      ∀ f, StoreCall.insert f ∉ (handleSubmit s mutRes fetchRes).calls) ∧
    (s.editingCustomer = none →
      (handleSubmit s mutRes fetchRes).calls.head? =
        some (StoreCall.insert s.formData) ∧
      ∀ i f, StoreCall.update i f ∉ (handleSubmit s mutRes fetchRes).calls) := by
  obtain ⟨cu, fc, ld, sq, edc, fd⟩ := s
  cases edc <;> cases mutRes <;> cases fetchRes <;>
    simp [handleSubmit, fetchCustomers]

/-- Claim C4, witness: concrete dispatches in editing and create mode. -/
theorem submit_dispatch_witness :
    (handleSubmit sEdit (.ok ()) (.ok (some []))).calls.head? =
      some (StoreCall.update "c1" ⟨"Alicia", "Chest 41", "Waist 33", "555-9999"⟩) ∧
    (handleSubmit sCreate (.ok ()) (.ok (some []))).calls.head? =
      some (StoreCall.insert ⟨"Bob", "Chest 38", "Waist 30", ""⟩) :=
  ⟨((submit_dispatch sEdit (.ok ()) (.ok (some []))).1 cexCustomer rfl).1,
   ((submit_dispatch sCreate (.ok ()) (.ok (some []))).2 rfl).1⟩

/-- Claim C5: an edit-request for a record transitions to editing mode
on that record and copies its four field values into the form exactly. -/
theorem edit_populates_form (s : AppState) (c : Customer) :
    (handleEdit s c).editingCustomer = some c ∧
    (handleEdit s c).formData.name = c.name ∧
    (handleEdit s c).formData.shirt = c.shirt ∧
    (handleEdit s c).formData.pants = c.pants ∧
    (handleEdit s c).formData.phone = c.phone :=
  ⟨rfl, rfl, rfl, rfl, rfl⟩

/-- Claim C6: a declined delete confirmation issues no store call, emits
no notification, and leaves the entire application state unchanged. -/
theorem delete_declined_noop (s : AppState) (id : String)
    (delRes : StoreResult Unit)
    (fetchRes : StoreResult (Option (List Customer))) :
    handleDelete s id false delRes fetchRes =
      { state := s, toasts := [], calls := [] } :=
  rfl

/-- Claim C7: a failed create submission leaves the customer list, the
filtered view and the form fields unchanged and emits exactly one
failure notification. -/
theorem create_failure_frame (s : AppState)
    (h : s.editingCustomer = none)
    (fetchRes : StoreResult (Option (List Customer))) :
    (handleSubmit s .err fetchRes).state.customers = s.customers ∧
    (handleSubmit s .err fetchRes).state.filteredCustomers =
      s.filteredCustomers ∧
    (handleSubmit s .err fetchRes).state.formData = s.formData ∧
    (handleSubmit s .err fetchRes).toasts =
      [Toast.error "Error adding customer"] := by
  simp [handleSubmit, h]

/-- Claim C7, witness: the failed-create frame at a concrete state. -/
theorem create_failure_frame_witness :
    (handleSubmit sCreate .err (.ok (some []))).state.formData =
      sCreate.formData ∧
    (handleSubmit sCreate .err (.ok (some []))).toasts =
      [Toast.error "Error adding customer"] :=
  ⟨(create_failure_frame sCreate rfl (.ok (some []))).2.2.1,
   (create_failure_frame sCreate rfl (.ok (some []))).2.2.2⟩

/-- Claim C8: a failed fetch emits exactly one error notification,
leaves both the in-memory list and the filtered view untouched, and
clears the loading flag. -/
theorem fetch_failure_frame (s : AppState) :
    (fetchCustomers s .err).1.customers = s.customers ∧
    (fetchCustomers s .err).1.filteredCustomers = s.filteredCustomers ∧
    (fetchCustomers s .err).1.loading = false ∧
    (fetchCustomers s .err).2 = [Toast.error "Error fetching customers"] :=
  ⟨rfl, rfl, rfl, rfl⟩

/-- Claim C9: a confirmed, successful delete leaves the form fields and
the editing-mode state exactly as they were (whatever record was being
edited, including the deleted one). -/
theorem delete_success_frame (s : AppState) (id : String)
    (fetchRes : StoreResult (Option (List Customer))) :
    (handleDelete s id true (.ok ()) fetchRes).state.formData = s.formData ∧
    (handleDelete s id true (.ok ()) fetchRes).state.editingCustomer =
      s.editingCustomer := by
  cases fetchRes <;> exact ⟨rfl, rfl⟩

/-- Claim C10: over rows whose `phone` may be absent (the spec's
optional field), the filter computation succeeds on every list in which
each row carries a `phone` string. -/
theorem filterO_total_of_phones (L : List CustomerO) (q : String)
    (h : ∀ c ∈ L, (c.phone).isSome = true) :
    (filterCustomersO L q).isSome = true := by
  induction L with
  | nil => rfl
  | cons c cs ih =>
      have hc := h c (List.mem_cons_self c cs)
      have hcs := ih fun d hd => h d (List.mem_cons_of_mem c hd)
      have hm : (matchesQueryO q c).isSome = true := by
        rw [matchesQueryO]
        by_cases hn :
            containsChars (toLowerChars q.data) (toLowerChars c.name.data) = true
        · simp [hn]
        · obtain ⟨p, hp⟩ := Option.isSome_iff_exists.mp hc
          simp [hn, hp]
      obtain ⟨b, hb⟩ := Option.isSome_iff_exists.mp hm
      obtain ⟨rest, hrest⟩ := Option.isSome_iff_exists.mp hcs
      rw [filterCustomersO, hb, hrest]
      simp

/-- Claim C10, witness: the filter succeeds on a concrete all-phones
list. -/
theorem filterO_total_of_phones_witness :
    (filterCustomersO cexOList "z").isSome = true :=
  filterO_total_of_phones cexOList "z" (by decide)
